import Mathlib

/-!
Shallow embedding of the HTTP benchmark engine of `src/extension.ts`
(`runHttpBenchmark` together with its inner helpers `makeRequest`,
`finalize` and `percentile`, lines 172-276 of the source).

Modelling conventions:
* Wall-clock time is the integer millisecond clock `Date.now()`, modelled
  as `ℕ`.  JavaScript numbers arising from division (`actualDuration`,
  `requestsPerSecond`, `avgLatency`, progress percentages) are modelled
  exactly as rationals (`ℚ`).
* The network is abstracted as an oracle: for each worker (connection),
  a list of `Event`s, one per request the worker issues, giving the
  request's outcome and the elapsed milliseconds until the corresponding
  handler fires.
* The engine's concurrency is a single-threaded event loop: each handler
  body (`res.on` end handler, `error` handler, `timeout` handler) runs
  atomically.  Commits of different workers interleave, but every
  statistic of the result depends only on the counter totals and on the
  multiset of latencies (the finalizer sorts them), so the model runs
  the workers' event streams sequentially through the shared state.
* `RunState` carries two ghost fields (`progressCalls`, `committed`)
  that merely record, for specification purposes, the `onProgress`
  invocations and the sequence of committed outcomes; the program does
  not store them.
-/

/-- Classification of one request/response exchange, following the three
handlers installed by `makeRequest`: the response handler (a status code
was received), the `error` handler (transport error) and the `timeout`
handler (the 30 s timeout elapsed). -/
inductive Outcome where
  | response (status : ℕ)
  | transportError
  | timedOut
deriving DecidableEq

/-- `true` exactly for the outcomes that record a latency sample
(`latencies.push` happens only in the response handler). -/
def Outcome.isTimed : Outcome → Bool
  | .response _ => true
  | .transportError => false
  | .timedOut => false

/-- One network event observed by a worker: the outcome of the request it
issued, and `dur`, the elapsed milliseconds from `reqStart` until the
corresponding handler fires.  Real handlers fire strictly after the
request starts. -/
structure Event where
  outcome : Outcome
  dur : ℕ
deriving DecidableEq

/-- The fixed per-request timeout passed in `reqOptions`
(`timeout: 30000`, line 205 of the source). -/
def requestTimeoutMs : ℕ := 30000

/-- The `BenchmarkOptions` interface (lines 23-30 of the source). -/
structure BenchmarkOptions where
  url : String
  method : String
  duration : ℕ
  connections : ℕ
  headers : List (String × String) := []
  body : Option String := none

/-- The `BenchmarkResult` interface (lines 6-21 of the source); the
`timestamp : Date` field is omitted (no claim mentions it).  `duration`
holds the measured `actualDuration` in seconds. -/
structure BenchmarkResult where
  url : String
  method : String
  duration : ℚ
  totalRequests : ℕ
  successfulRequests : ℕ
  failedRequests : ℕ
  requestsPerSecond : ℚ
  avgLatency : ℚ
  minLatency : ℕ
  maxLatency : ℕ
  p50 : ℕ
  p95 : ℕ
  p99 : ℕ
deriving DecidableEq

/-- The mutable state of one run: the `latencies` array and the
`successCount` / `failCount` counters of `runHttpBenchmark`, plus two
ghost fields used only by the specification: `progressCalls` records the
arguments of every `onProgress` invocation, `committed` records every
committed outcome. -/
structure RunState where
  latencies : List ℕ
  successCount : ℕ
  failCount : ℕ
  progressCalls : List ℚ
  committed : List Outcome
deriving DecidableEq

/-- The state at the start of a run. -/
def initialState : RunState := ⟨[], 0, 0, [], []⟩

/-- The value passed to `onProgress` (line 219 of the source):
`Math.min(100, ((Date.now() - startTime) / (duration * 1000)) * 100)`. -/
def progressValue (startTime durationS now : ℕ) : ℚ :=
  min 100 ((((now - startTime : ℕ) : ℚ) / ((durationS : ℚ) * 1000)) * 100)

/-- One committed exchange, mirroring the three handlers of `makeRequest`
(lines 208-235 of the source).  `t` is the clock when the request starts
(`reqStart`); the handler fires at `t + e.dur`.
* Response received: `latencies.push(latency)`; then the status test
  `res.statusCode && res.statusCode >= 200 && res.statusCode < 400`
  (a missing status is modelled as `0`, which fails `200 ≤ status`)
  increments `successCount` or `failCount`; then `onProgress` is called.
* `error` handler: `failCount++` only.
* `timeout` handler: `failCount++` only (the request is destroyed).
Returns the updated state and the clock at which the worker resumes. -/
def commitSample (startTime durationS : ℕ) (s : RunState) (t : ℕ) (e : Event) :
    RunState × ℕ :=
  let now := t + e.dur
  match e.outcome with
  | .response status =>
      ({ latencies := s.latencies ++ [e.dur]
         successCount :=
           if 200 ≤ status ∧ status < 400 then s.successCount + 1 else s.successCount
         failCount :=
           if 200 ≤ status ∧ status < 400 then s.failCount else s.failCount + 1
         progressCalls := s.progressCalls ++ [progressValue startTime durationS now]
         committed := s.committed ++ [Outcome.response status] }, now)
  | .transportError =>
      ({ s with failCount := s.failCount + 1
                committed := s.committed ++ [Outcome.transportError] }, now)
  | .timedOut =>
      ({ s with failCount := s.failCount + 1
                committed := s.committed ++ [Outcome.timedOut] }, now)

/-- One worker: the `makeRequest` loop (lines 188-241 of the source).
Before issuing a request it compares `Date.now()` with
`endTime = startTime + duration * 1000`; at or past the deadline it
stops (returning its stop time) without issuing another request; a
request already issued always runs to its handler, even past the
deadline (drain).  The event list is the oracle for the requests this
worker would issue; an exhausted oracle stops the worker (a model
artifact: theorems that need the worker to reach the deadline assume the
oracle covers it). -/
def workerLoop (startTime durationS : ℕ) : RunState → ℕ → List Event → RunState × ℕ
  | s, t, [] => (s, t)
  | s, t, e :: rest =>
      if startTime + durationS * 1000 ≤ t then (s, t)
      else
        let p := commitSample startTime durationS s t e
        workerLoop startTime durationS p.1 p.2 rest

/-- The scheduler: the `for` loop (lines 272-274 of the source) starts
one worker per connection, all at `startTime`, sharing one state.  The
second component is the clock at which `finalize` fires — the time the
last worker observes the deadline with no request in flight — i.e. the
maximum of the worker stop times; it is `none` when there are no
workers, for then no worker ever reaches the `finalize()` call and the
promise never settles. -/
def runWorkers (startTime durationS : ℕ) : RunState → List (List Event) → RunState × Option ℕ
  | s, [] => (s, none)
  | s, evs :: rest =>
      let p := workerLoop startTime durationS s startTime evs
      let q := runWorkers startTime durationS p.1 rest
      (q.1, some (match q.2 with
        | none => p.2
        | some u => max p.2 u))

/-- `const index = Math.ceil(latencies.length * p) - 1` (line 249 of the
source): the raw nearest-rank index, before clamping. -/
def percentileIndex (count : ℕ) (p : ℚ) : ℤ :=
  ⌈(count : ℚ) * p⌉ - 1

/-- The `percentile` closure of `finalize` (lines 247-251 of the source):
`if (latencies.length === 0) return 0;
 const index = Math.ceil(latencies.length * p) - 1;
 return latencies[Math.max(0, index)];`
applied to the ascending-sorted latency array. -/
def percentile (latencies : List ℕ) (p : ℚ) : ℕ :=
  if latencies.length = 0 then 0
  else latencies.getD (Int.toNat (max 0 (percentileIndex latencies.length p))) 0

/-- The `finalize` closure (lines 243-269 of the source), invoked with
the elapsed milliseconds `Date.now() - startTime` measured when the last
worker stops.  It sorts the latencies ascending (`latencies.sort((a, b)
=> a - b)`) and builds the result record.  Caveat on division: rational
division agrees exactly with the source's float division whenever the
divisor is nonzero (the `avgLatency` divisor is guarded by
`latencies.length > 0` in code and model alike), but for
`requestsPerSecond` with `elapsedMs = 0` JavaScript computes `0/0 = NaN`
while `ℚ` yields 0 by convention; no theorem below relies on the value
of that quotient — statements about the zero-elapsed case assert the
zero divisor itself instead. -/
def finalize (options : BenchmarkOptions) (s : RunState) (elapsedMs : ℕ) : BenchmarkResult :=
  let actualDuration : ℚ := (elapsedMs : ℚ) / 1000
  let sortedLatencies := s.latencies.insertionSort (· ≤ ·)
  { url := options.url
    method := options.method
    duration := actualDuration
    totalRequests := s.successCount + s.failCount
    successfulRequests := s.successCount
    failedRequests := s.failCount
    requestsPerSecond := ((s.successCount + s.failCount : ℕ) : ℚ) / actualDuration
    avgLatency :=
      if 0 < sortedLatencies.length then
        ((sortedLatencies.sum : ℕ) : ℚ) / (sortedLatencies.length : ℚ)
      else 0
    minLatency := if 0 < sortedLatencies.length then sortedLatencies.headD 0 else 0
    maxLatency := if 0 < sortedLatencies.length then sortedLatencies.getLastD 0 else 0
    p50 := percentile sortedLatencies 0.5
    p95 := percentile sortedLatencies 0.95
    p99 := percentile sortedLatencies 0.99 }

/-- Modelled from the spec: the WHATWG URL parser invoked as
`new URL(options.url)` (line 184) is Node library code, not part of this
repository; the spec only requires the target to "parse to a valid
scheme+host".  This model accepts exactly the strings of the shape
`scheme://rest` with nonempty scheme and nonempty rest, returning the
two parts. -/
def splitScheme : List Char → Option (List Char × List Char)
  | [] => none
  | ':' :: '/' :: '/' :: rest => some ([], rest)
  | c :: rest =>
      match splitScheme rest with
      | some p => some (c :: p.1, p.2)
      | none => none

/-- Modelled from the spec: validity of `options.url` — see
`splitScheme`.  Returns the parsed scheme and remainder, or `none` for a
malformed URL. -/
def parseURL (s : String) : Option (List Char × List Char) :=
  match splitScheme s.data with
  | some p => if p.1 ≠ [] ∧ p.2 ≠ [] then some p else none
  | none => none

/-- The engine invocation `runHttpBenchmark(options, onProgress)`
(lines 172-276 of the source).  The returned promise is encoded as
`Except String (Option BenchmarkResult)`:
* `.error msg` — the promise rejects (the only synchronous throw inside
  the executor is `new URL(options.url)` on a malformed URL, before any
  request is issued);
* `.ok none` — the promise never settles: `resolve` is reachable only
  from `finalize`, which only a stopping worker calls, and with zero
  connections the `for` loop starts no worker;
* `.ok (some r)` — the promise resolves with the finalized result. -/
def runHttpBenchmark (options : BenchmarkOptions) (startTime : ℕ)
    (oracle : ℕ → List Event) : Except String (Option BenchmarkResult) :=
  match parseURL options.url with
  | none => .error "Invalid URL"
  | some _ =>
      let p := runWorkers startTime options.duration initialState
        ((List.range options.connections).map oracle)
      match p.2 with
      | none => .ok none
      | some tf => .ok (some (finalize options p.1 (tf - startTime)))

/-- The collector invariant: the counters account for every committed
outcome, and the latency array holds exactly one entry per timed
committed outcome. -/
def CollectorInv (s : RunState) : Prop :=
  s.successCount + s.failCount = s.committed.length ∧
  s.latencies.length = (s.committed.filter Outcome.isTimed).length

/-- Evaluation helper: once the ceiling is known, `percentile` is a list
lookup. -/
theorem percentile_eval (l : List ℕ) (p : ℚ) (n : ℤ) (hl : ¬ l.length = 0)
    (h : ⌈(l.length : ℚ) * p⌉ = n) :
    percentile l p = l.getD (Int.toNat (max 0 (n - 1))) 0 := by
  simp only [percentile, percentileIndex, if_neg hl, h]

/-- C2: the finalizer's `percentile(p)` returns 0 on zero timed samples
and otherwise the element of the sorted array at index
`max(0, ceil(count * p) - 1)`; on `[10, 20, 30, 40, 100]` it returns 30
for p = 0.5 and 100 for p = 0.95 and p = 0.99. -/
theorem c2_percentile_spec :
    (∀ p : ℚ, percentile [] p = 0) ∧
    (∀ (l : List ℕ) (p : ℚ), ¬ l.length = 0 →
      percentile l p = l.getD (Int.toNat (max 0 (⌈(l.length : ℚ) * p⌉ - 1))) 0) ∧
    percentile [10, 20, 30, 40, 100] 0.5 = 30 ∧
    percentile [10, 20, 30, 40, 100] 0.95 = 100 ∧
    percentile [10, 20, 30, 40, 100] 0.99 = 100 := by
  refine ⟨fun p => rfl,
    fun l p hl => by simp only [percentile, percentileIndex, if_neg hl], ?_, ?_, ?_⟩
  · rw [percentile_eval _ _ 3 (by decide) (by rw [Int.ceil_eq_iff]; norm_num)]
    decide
  · rw [percentile_eval _ _ 5 (by decide) (by rw [Int.ceil_eq_iff]; norm_num)]
    decide
  · rw [percentile_eval _ _ 5 (by decide) (by rw [Int.ceil_eq_iff]; norm_num)]
    decide

/-- Witness for C2: the zero-sample rule and the index formula evaluated
at the concrete sample list. -/
theorem c2_percentile_spec_witness :
    percentile [] 0.5 = 0 ∧
    percentile [10, 20, 30, 40, 100] 0.5 =
      [10, 20, 30, 40, 100].getD
        (Int.toNat (max 0 (⌈(([10, 20, 30, 40, 100] : List ℕ).length : ℚ) * 0.5⌉ - 1))) 0 :=
  ⟨c2_percentile_spec.1 0.5,
   c2_percentile_spec.2.1 [10, 20, 30, 40, 100] 0.5 (by decide)⟩

/-- C3: the three-way outcome classification of `makeRequest`.  A
response with status in [200, 400) is a timed success (latency recorded,
success count incremented); a response with status outside [200, 400) —
e.g. HTTP 503 — is a timed failure (latency recorded, failure count
incremented); a transport error or the 30-second timeout is an untimed
failure (failure count incremented, no latency recorded, so it never
feeds avg/min/max/percentiles). -/
theorem c3_outcome_classification (startTime durationS : ℕ) (s : RunState)
    (t : ℕ) (status dur : ℕ) :
    ((200 ≤ status ∧ status < 400) →
      (commitSample startTime durationS s t ⟨Outcome.response status, dur⟩).1.latencies
          = s.latencies ++ [dur] ∧
      (commitSample startTime durationS s t ⟨Outcome.response status, dur⟩).1.successCount
          = s.successCount + 1 ∧
      (commitSample startTime durationS s t ⟨Outcome.response status, dur⟩).1.failCount
          = s.failCount) ∧
    (¬ (200 ≤ status ∧ status < 400) →
      (commitSample startTime durationS s t ⟨Outcome.response status, dur⟩).1.latencies
          = s.latencies ++ [dur] ∧
      (commitSample startTime durationS s t ⟨Outcome.response status, dur⟩).1.successCount
          = s.successCount ∧
      (commitSample startTime durationS s t ⟨Outcome.response status, dur⟩).1.failCount
          = s.failCount + 1) ∧
    ((commitSample startTime durationS s t ⟨Outcome.transportError, dur⟩).1.latencies
          = s.latencies ∧
      (commitSample startTime durationS s t ⟨Outcome.transportError, dur⟩).1.successCount
          = s.successCount ∧
      (commitSample startTime durationS s t ⟨Outcome.transportError, dur⟩).1.failCount
          = s.failCount + 1) ∧
    ((commitSample startTime durationS s t ⟨Outcome.timedOut, dur⟩).1.latencies
          = s.latencies ∧
      (commitSample startTime durationS s t ⟨Outcome.timedOut, dur⟩).1.successCount
          = s.successCount ∧
      (commitSample startTime durationS s t ⟨Outcome.timedOut, dur⟩).1.failCount
          = s.failCount + 1) ∧
    requestTimeoutMs = 30000 := by
  refine ⟨fun h => ?_, fun h => ?_, ⟨rfl, rfl, rfl⟩, ⟨rfl, rfl, rfl⟩, rfl⟩
  · simp [commitSample, h]
  · simp [commitSample, h]

/-- Witness for C3: classification evaluated at a 204 response (timed
success), a 503 response (timed failure) and a timeout (untimed
failure), from the initial state. -/
theorem c3_outcome_classification_witness :
    (commitSample 0 1 initialState 0 ⟨Outcome.response 204, 70⟩).1.latencies
        = initialState.latencies ++ [70] ∧
    (commitSample 0 1 initialState 0 ⟨Outcome.response 204, 70⟩).1.successCount
        = initialState.successCount + 1 ∧
    (commitSample 0 1 initialState 0 ⟨Outcome.response 503, 70⟩).1.latencies
        = initialState.latencies ++ [70] ∧
    (commitSample 0 1 initialState 0 ⟨Outcome.response 503, 70⟩).1.failCount
        = initialState.failCount + 1 ∧
    (commitSample 0 1 initialState 0 ⟨Outcome.timedOut, 30000⟩).1.latencies
        = initialState.latencies ∧
    (commitSample 0 1 initialState 0 ⟨Outcome.timedOut, 30000⟩).1.failCount
        = initialState.failCount + 1 := by
  obtain ⟨ha, hb, -⟩ :=
    (c3_outcome_classification 0 1 initialState 0 204 70).1 (by decide)
  obtain ⟨hc, -, hd⟩ :=
    (c3_outcome_classification 0 1 initialState 0 503 70).2.1 (by decide)
  obtain ⟨he, -, hf⟩ :=
    (c3_outcome_classification 0 1 initialState 0 503 30000).2.2.2.1
  exact ⟨ha, hb, hc, hd, he, hf⟩

/-- Counterexample for C6: the claim asserts that `onProgress` runs after
every committed sample, including untimed ones (transport errors and
timeouts).  In the code `onProgress` is called only in the response
handler (line 219); the `error` and `timeout` handlers (lines 224-235)
do not call it.  Concretely: a one-worker run whose single request hits
a transport error commits one outcome but performs zero progress
invocations. -/
theorem c6_progress_counterexample :
    (runWorkers 0 1 initialState [[⟨Outcome.transportError, 200⟩]]).1.committed.length
        = 1 ∧
    (runWorkers 0 1 initialState [[⟨Outcome.transportError, 200⟩]]).1.progressCalls.length
        = 0 :=
  ⟨rfl, rfl⟩

/-- C6 as amended: the Progress Reporter is invoked after every timed
sample — a committed response, successful or not — and not after
transport errors or timeouts; each invocation passes
`min(100, (now - start) / (duration * 1000) * 100)`. -/
theorem c6_progress_after_timed_only (startTime durationS : ℕ) (s : RunState)
    (t : ℕ) (status dur : ℕ) :
    (commitSample startTime durationS s t ⟨Outcome.response status, dur⟩).1.progressCalls
        = s.progressCalls ++ [progressValue startTime durationS (t + dur)] ∧
    (commitSample startTime durationS s t ⟨Outcome.transportError, dur⟩).1.progressCalls
        = s.progressCalls ∧
    (commitSample startTime durationS s t ⟨Outcome.timedOut, dur⟩).1.progressCalls
        = s.progressCalls ∧
    progressValue startTime durationS (t + dur)
        = min 100 ((((t + dur - startTime : ℕ) : ℚ) / ((durationS : ℚ) * 1000)) * 100) :=
  ⟨rfl, rfl, rfl, rfl⟩

/-- Witness for C6 (amended): the contract evaluated at a concrete
response and a concrete transport error. -/
theorem c6_progress_after_timed_only_witness :
    (commitSample 0 5 initialState 0 ⟨Outcome.response 200, 250⟩).1.progressCalls
        = initialState.progressCalls ++ [progressValue 0 5 (0 + 250)] ∧
    (commitSample 0 5 initialState 0 ⟨Outcome.transportError, 250⟩).1.progressCalls
        = initialState.progressCalls :=
  ⟨(c6_progress_after_timed_only 0 5 initialState 0 200 250).1,
   (c6_progress_after_timed_only 0 5 initialState 0 200 250).2.1⟩

theorem collectorInv_initial : CollectorInv initialState :=
  ⟨rfl, rfl⟩

theorem collectorInv_commitSample (startTime durationS : ℕ) (s : RunState) (t : ℕ)
    (e : Event) (h : CollectorInv s) :
    CollectorInv (commitSample startTime durationS s t e).1 := by
  obtain ⟨h1, h2⟩ := h
  obtain ⟨o, dur⟩ := e
  cases o with
  | response status =>
      constructor
      · simp only [commitSample]
        split_ifs <;> simp only [List.length_append, List.length_cons,
          List.length_nil] <;> omega
      · simp only [commitSample, List.filter_append, List.length_append]
        simp [Outcome.isTimed, h2]
  | transportError =>
      constructor
      · simp only [commitSample, List.length_append, List.length_cons, List.length_nil]
        omega
      · simp only [commitSample, List.filter_append, List.length_append]
        simp [Outcome.isTimed, h2]
  | timedOut =>
      constructor
      · simp only [commitSample, List.length_append, List.length_cons, List.length_nil]
        omega
      · simp only [commitSample, List.filter_append, List.length_append]
        simp [Outcome.isTimed, h2]

theorem collectorInv_workerLoop (startTime durationS : ℕ) (evs : List Event) :
    ∀ (s : RunState) (t : ℕ), CollectorInv s →
      CollectorInv (workerLoop startTime durationS s t evs).1 := by
  induction evs with
  | nil => intro s t h; exact h
  | cons e rest ih =>
      intro s t h
      simp only [workerLoop]
      split
      · exact h
      · exact ih _ _ (collectorInv_commitSample _ _ _ _ _ h)

theorem collectorInv_runWorkers (startTime durationS : ℕ) (oracles : List (List Event)) :
    ∀ s : RunState, CollectorInv s →
      CollectorInv (runWorkers startTime durationS s oracles).1 := by
  induction oracles with
  | nil => intro s h; exact h
  | cons evs rest ih =>
      intro s h
      simp only [runWorkers]
      exact ih _ (collectorInv_workerLoop _ _ _ _ _ h)

/-- C1: for every completed run, the produced BenchmarkResult satisfies
`totalRequests = successfulRequests + failedRequests` exactly, and the
number of timed latency samples is at most `totalRequests`, with
equality holding iff every committed outcome was timed — i.e. equality
fails exactly when some connection error or timeout occurred. -/
theorem c1_totals_invariant (options : BenchmarkOptions) (startTime : ℕ)
    (oracle : ℕ → List Event) (s : RunState) (tf : ℕ)
    (hrun : runWorkers startTime options.duration initialState
        ((List.range options.connections).map oracle) = (s, some tf)) :
    (finalize options s (tf - startTime)).totalRequests =
        (finalize options s (tf - startTime)).successfulRequests +
        (finalize options s (tf - startTime)).failedRequests ∧
    s.latencies.length ≤ (finalize options s (tf - startTime)).totalRequests ∧
    (s.latencies.length = (finalize options s (tf - startTime)).totalRequests ↔
        ∀ o ∈ s.committed, o.isTimed = true) ∧
    (s.latencies.length ≠ (finalize options s (tf - startTime)).totalRequests ↔
        ∃ o ∈ s.committed, o.isTimed = false) := by
  have hInv : CollectorInv s := by
    have := collectorInv_runWorkers startTime options.duration
      ((List.range options.connections).map oracle) initialState collectorInv_initial
    rw [hrun] at this
    exact this
  obtain ⟨h1, h2⟩ := hInv
  have htot : (finalize options s (tf - startTime)).totalRequests =
      s.successCount + s.failCount := rfl
  refine ⟨rfl, ?_, ?_, ?_⟩
  · rw [htot, h1, h2]
    exact List.length_filter_le _ _
  · rw [htot, h1, h2]
    exact List.filter_length_eq_length
  · rw [htot, h1, h2]
    constructor
    · intro hne
      by_contra hall
      push_neg at hall
      simp only [Bool.not_eq_false] at hall
      exact hne (List.filter_length_eq_length.mpr hall)
    · intro ⟨o, ho, hfalse⟩ heq
      have := List.filter_length_eq_length.mp heq o ho
      rw [hfalse] at this
      exact Bool.false_ne_true this

/-- Witness for C1: a one-worker run committing a success, a timed
failure (HTTP 503) and a transport error; the invariant holds on the
resulting record (1 success + 2 failures = 3 total). -/
theorem c1_totals_invariant_witness :
    (finalize ⟨"http://h/p", "GET", 1, 1, [], none⟩
        ⟨[300, 300], 1, 2, [progressValue 0 1 300, progressValue 0 1 600],
         [Outcome.response 200, Outcome.response 503, Outcome.transportError]⟩
        1100).totalRequests =
      (finalize ⟨"http://h/p", "GET", 1, 1, [], none⟩
        ⟨[300, 300], 1, 2, [progressValue 0 1 300, progressValue 0 1 600],
         [Outcome.response 200, Outcome.response 503, Outcome.transportError]⟩
        1100).successfulRequests +
      (finalize ⟨"http://h/p", "GET", 1, 1, [], none⟩
        ⟨[300, 300], 1, 2, [progressValue 0 1 300, progressValue 0 1 600],
         [Outcome.response 200, Outcome.response 503, Outcome.transportError]⟩
        1100).failedRequests :=
  (c1_totals_invariant ⟨"http://h/p", "GET", 1, 1, [], none⟩ 0
    (fun _ => [⟨Outcome.response 200, 300⟩, ⟨Outcome.response 503, 300⟩,
               ⟨Outcome.transportError, 500⟩])
    ⟨[300, 300], 1, 2, [progressValue 0 1 300, progressValue 0 1 600],
     [Outcome.response 200, Outcome.response 503, Outcome.transportError]⟩
    1100 rfl).1

theorem commitSample_time (startTime durationS : ℕ) (s : RunState) (t : ℕ) (e : Event) :
    (commitSample startTime durationS s t e).2 = t + e.dur := by
  obtain ⟨o, d⟩ := e
  cases o <;> rfl

theorem workerLoop_stopped (startTime durationS : ℕ) (s : RunState) (t : ℕ)
    (evs : List Event) (h : startTime + durationS * 1000 ≤ t) :
    workerLoop startTime durationS s t evs = (s, t) := by
  cases evs with
  | nil => rfl
  | cons e rest => simp only [workerLoop, if_pos h]

theorem runWorkers_settles_of_ne_nil (startTime durationS : ℕ) (s : RunState)
    (oracles : List (List Event)) (h : oracles ≠ []) :
    ∃ tf, (runWorkers startTime durationS s oracles).2 = some tf := by
  cases oracles with
  | nil => exact absurd rfl h
  | cons evs rest => exact ⟨_, rfl⟩

theorem runWorkers_zero_duration (startTime : ℕ) (oracles : List (List Event)) :
    ∀ s : RunState, oracles ≠ [] →
      runWorkers startTime 0 s oracles = (s, some startTime) := by
  induction oracles with
  | nil => intro s h; exact absurd rfl h
  | cons evs rest ih =>
      intro s _
      simp only [runWorkers]
      rw [workerLoop_stopped startTime 0 s startTime evs (by omega)]
      cases rest with
      | nil => simp [runWorkers]
      | cons a b =>
          rw [ih s (by simp)]
          simp

/-- For a run of zero configured duration the deadline is already past at
start, so every worker stops immediately and the finalizer sees the
initial state with zero elapsed time; the latency statistics evaluate to
0, and the measured `actualDuration` is 0 — so the `requestsPerSecond`
computation divides by zero (yielding `NaN` under the source's float
semantics; this development asserts the zero divisor, not a value for
the quotient). -/
theorem finalize_initial_zero (options : BenchmarkOptions) :
    (finalize options initialState 0).totalRequests = 0 ∧
    (finalize options initialState 0).duration = 0 ∧
    (finalize options initialState 0).avgLatency = 0 ∧
    (finalize options initialState 0).minLatency = 0 ∧
    (finalize options initialState 0).maxLatency = 0 ∧
    (finalize options initialState 0).p50 = 0 ∧
    (finalize options initialState 0).p95 = 0 ∧
    (finalize options initialState 0).p99 = 0 := by
  refine ⟨rfl, ?_, rfl, rfl, rfl, rfl, rfl, rfl⟩
  show ((0 : ℕ) : ℚ) / 1000 = 0
  norm_num

/-- Counterexample for C4: with a perfectly valid URL and
`connections = 0`, the claim says the run completes with
`totalRequests = 0`; in the code the `for` loop then never calls
`makeRequest`, `finalize`/`resolve` are unreachable, and the promise
never settles — encoded as `.ok none`: no `BenchmarkResult` is ever
produced, so the run does not complete at all. -/
theorem c4_zero_connections_counterexample :
    runHttpBenchmark ⟨"http://a/b", "GET", 10, 0, [], none⟩ 0 (fun _ => [])
      = Except.ok none := rfl

/-- C4 as amended: with a valid URL, a run with `connections = 0` never
resolves (no result, hence no statistics at all), while a run with
`duration = 0` and at least one connection completes immediately with
`totalRequests = 0` and every latency statistic
(avg/min/max/p50/p95/p99) equal to 0 — but the measured
`actualDuration` is 0, so `requestsPerSecond` is computed by a division
whose divisor is zero: contrary to the original claim, a division by
zero does surface there (as `NaN` under the source's float semantics,
which lies outside this exact-arithmetic embedding; the theorem
therefore asserts the zero divisor rather than a value for the
quotient). -/
theorem c4_zero_work (options : BenchmarkOptions) (startTime : ℕ)
    (oracle : ℕ → List Event) (hu : parseURL options.url ≠ none) :
    (options.connections = 0 →
      runHttpBenchmark options startTime oracle = Except.ok none) ∧
    (1 ≤ options.connections → options.duration = 0 →
      runHttpBenchmark options startTime oracle =
        Except.ok (some (finalize options initialState 0)) ∧
      (finalize options initialState 0).totalRequests = 0 ∧
      (finalize options initialState 0).duration = 0 ∧
      (finalize options initialState 0).avgLatency = 0 ∧
      (finalize options initialState 0).minLatency = 0 ∧
      (finalize options initialState 0).maxLatency = 0 ∧
      (finalize options initialState 0).p50 = 0 ∧
      (finalize options initialState 0).p95 = 0 ∧
      (finalize options initialState 0).p99 = 0) := by
  obtain ⟨u, hu'⟩ := Option.ne_none_iff_exists'.mp hu
  constructor
  · intro hc
    simp [runHttpBenchmark, hu', hc, runWorkers]
  · intro hc hd
    have hne : (List.range options.connections).map oracle ≠ [] := by
      simp only [ne_eq, List.map_eq_nil_iff, List.range_eq_nil]
      omega
    have hrun := runWorkers_zero_duration startTime
      ((List.range options.connections).map oracle) initialState hne
    refine ⟨?_, finalize_initial_zero options⟩
    simp [runHttpBenchmark, hu', hd, hrun]

/-- Witness for C4 (amended): both branches evaluated at concrete
configurations — `connections = 0` never resolves; `duration = 0` with
two connections resolves with `totalRequests = 0` and a measured
duration of 0 (the zero divisor of `requestsPerSecond`). -/
theorem c4_zero_work_witness :
    runHttpBenchmark ⟨"http://c/d", "POST", 7, 0, [], none⟩ 0 (fun _ => [])
      = Except.ok none ∧
    runHttpBenchmark ⟨"http://c/d", "GET", 0, 2, [], none⟩ 0 (fun _ => [])
      = Except.ok (some (finalize ⟨"http://c/d", "GET", 0, 2, [], none⟩ initialState 0)) ∧
    (finalize ⟨"http://c/d", "GET", 0, 2, [], none⟩ initialState 0).totalRequests = 0 ∧
    (finalize ⟨"http://c/d", "GET", 0, 2, [], none⟩ initialState 0).duration = 0 := by
  have h1 := (c4_zero_work ⟨"http://c/d", "POST", 7, 0, [], none⟩ 0 (fun _ => [])
    (by decide)).1 rfl
  have h2 := (c4_zero_work ⟨"http://c/d", "GET", 0, 2, [], none⟩ 0 (fun _ => [])
    (by decide)).2 (by decide) rfl
  exact ⟨h1, h2.1, h2.2.1, h2.2.2.1⟩

/-- Counterexample for C5: the claim says the caller always observes
either a full `BenchmarkResult` or a single pre-run fatal error.  With a
valid URL and `connections = 0` the code neither rejects nor resolves
(the promise stays pending forever, `.ok none` in the model): the caller
observes neither. -/
theorem c5_observed_outcome_counterexample :
    runHttpBenchmark ⟨"https://x/y", "GET", 3, 0, [], none⟩ 0 (fun _ => [])
      = Except.ok none := rfl

/-- C5 as amended: the invocation rejects exactly when `config.target`
is a malformed URL, and then it does so for every possible network
behaviour (so before any request is sent); with a valid URL and at least
one connection the run always resolves with a full result, every
timeout / connection error / bad status having been absorbed by the
counters; with a valid URL and zero connections it never settles. -/
theorem c5_fail_only_on_bad_url (options : BenchmarkOptions) (startTime : ℕ)
    (oracle : ℕ → List Event) :
    (parseURL options.url = none →
      runHttpBenchmark options startTime oracle = Except.error "Invalid URL") ∧
    (parseURL options.url ≠ none → 1 ≤ options.connections →
      ∃ r, runHttpBenchmark options startTime oracle = Except.ok (some r)) ∧
    (parseURL options.url ≠ none → options.connections = 0 →
      runHttpBenchmark options startTime oracle = Except.ok none) := by
  refine ⟨fun h => by simp [runHttpBenchmark, h], fun hu hc => ?_, fun hu hc => ?_⟩
  · obtain ⟨u, hu'⟩ := Option.ne_none_iff_exists'.mp hu
    have hne : (List.range options.connections).map oracle ≠ [] := by
      simp only [ne_eq, List.map_eq_nil_iff, List.range_eq_nil]
      omega
    obtain ⟨tf, htf⟩ := runWorkers_settles_of_ne_nil startTime options.duration
      initialState ((List.range options.connections).map oracle) hne
    refine ⟨finalize options
      (runWorkers startTime options.duration initialState
        ((List.range options.connections).map oracle)).1 (tf - startTime), ?_⟩
    simp [runHttpBenchmark, hu', htf]
  · obtain ⟨u, hu'⟩ := Option.ne_none_iff_exists'.mp hu
    simp [runHttpBenchmark, hu', hc, runWorkers]

/-- Witness for C5 (amended): a malformed URL (no scheme separator)
rejects; a well-formed URL with one connection resolves with a result
even though its only request suffers a transport error. -/
theorem c5_fail_only_on_bad_url_witness :
    runHttpBenchmark ⟨"not a url", "GET", 1, 1, [], none⟩ 0 (fun _ => [])
      = Except.error "Invalid URL" ∧
    ∃ r, runHttpBenchmark ⟨"https://x/y", "GET", 1, 1, [], none⟩ 0
        (fun _ => [⟨Outcome.transportError, 2000⟩]) = Except.ok (some r) :=
  ⟨(c5_fail_only_on_bad_url ⟨"not a url", "GET", 1, 1, [], none⟩ 0 (fun _ => [])).1
      (by decide),
   (c5_fail_only_on_bad_url ⟨"https://x/y", "GET", 1, 1, [], none⟩ 0
      (fun _ => [⟨Outcome.transportError, 2000⟩])).2.1 (by decide) (by decide)⟩

theorem workerLoop_stopTime_ge (startTime durationS : ℕ) (evs : List Event) :
    ∀ (s : RunState) (t : ℕ),
      startTime + durationS * 1000 ≤ t + (evs.map Event.dur).sum →
      startTime + durationS * 1000 ≤ (workerLoop startTime durationS s t evs).2 := by
  induction evs with
  | nil => intro s t h; simpa using h
  | cons e rest ih =>
      intro s t h
      simp only [List.map_cons, List.sum_cons] at h
      simp only [workerLoop]
      split
      · next hstop => exact hstop
      · apply ih
        rw [commitSample_time]
        omega

theorem runWorkers_head_le (startTime durationS : ℕ) (s : RunState)
    (evs : List Event) (rest : List (List Event)) (tf : ℕ)
    (h : (runWorkers startTime durationS s (evs :: rest)).2 = some tf) :
    (workerLoop startTime durationS s startTime evs).2 ≤ tf := by
  simp only [runWorkers] at h
  cases hq : (runWorkers startTime durationS
      (workerLoop startTime durationS s startTime evs).1 rest).2 with
  | none =>
      rw [hq] at h
      simp only [Option.some.injEq] at h
      omega
  | some u =>
      rw [hq] at h
      simp only [Option.some.injEq] at h
      rw [← h]
      exact le_max_left _ _

theorem runWorkers_tail_le (startTime durationS : ℕ) (s : RunState)
    (evs : List Event) (rest : List (List Event)) (tf u : ℕ)
    (h : (runWorkers startTime durationS s (evs :: rest)).2 = some tf)
    (hu : (runWorkers startTime durationS
        (workerLoop startTime durationS s startTime evs).1 rest).2 = some u) :
    u ≤ tf := by
  simp only [runWorkers] at h
  rw [hu] at h
  simp only [Option.some.injEq] at h
  rw [← h]
  exact le_max_right _ _

theorem runWorkers_stopTime_ge (startTime durationS : ℕ) (oracles : List (List Event)) :
    ∀ (s : RunState) (tf : ℕ) (evs : List Event), evs ∈ oracles →
      startTime + durationS * 1000 ≤ startTime + (evs.map Event.dur).sum →
      (runWorkers startTime durationS s oracles).2 = some tf →
      startTime + durationS * 1000 ≤ tf := by
  induction oracles with
  | nil => intro s tf evs h; exact absurd h (List.not_mem_nil evs)
  | cons evs0 rest ih =>
      intro s tf evs hmem hcov hres
      rcases List.mem_cons.mp hmem with heq | hmem'
      · subst heq
        have hp := workerLoop_stopTime_ge startTime durationS evs s startTime hcov
        exact le_trans hp (runWorkers_head_le startTime durationS s evs rest tf hres)
      · have hne : rest ≠ [] := by
          intro hnil
          rw [hnil] at hmem'
          exact absurd hmem' (List.not_mem_nil evs)
        obtain ⟨u, hu⟩ := runWorkers_settles_of_ne_nil startTime durationS
          (workerLoop startTime durationS s startTime evs0).1 rest hne
        have := ih _ u evs hmem' hcov hu
        exact le_trans this (runWorkers_tail_le startTime durationS s evs0 rest tf u hres hu)

/-- C7: for every completed run, `requestsPerSecond` in the result is
exactly `totalRequests / actualDuration`, where `actualDuration` is the
measured wall-clock time from run start to the scheduler's resolution
(the time the last worker drained), converted to seconds — not the
configured duration. -/
theorem c7_rps_measured_duration (options : BenchmarkOptions) (startTime : ℕ)
    (oracle : ℕ → List Event) (s : RunState) (tf : ℕ)
    (hu : parseURL options.url ≠ none)
    (hrun : runWorkers startTime options.duration initialState
        ((List.range options.connections).map oracle) = (s, some tf)) :
    runHttpBenchmark options startTime oracle =
      Except.ok (some (finalize options s (tf - startTime))) ∧
    (finalize options s (tf - startTime)).duration = ((tf - startTime : ℕ) : ℚ) / 1000 ∧
    (finalize options s (tf - startTime)).requestsPerSecond =
      ((finalize options s (tf - startTime)).totalRequests : ℚ) /
        (finalize options s (tf - startTime)).duration := by
  obtain ⟨url, hu'⟩ := Option.ne_none_iff_exists'.mp hu
  refine ⟨?_, rfl, rfl⟩
  simp [runHttpBenchmark, hu', hrun]

/-- Witness for C7: a one-worker run whose single 1500 ms request drains
past the 1 s deadline; the measured duration is 1.5 s and
`requestsPerSecond` is the quotient by it. -/
theorem c7_rps_measured_duration_witness :
    runHttpBenchmark ⟨"http://h/p", "GET", 1, 1, [], none⟩ 0
        (fun _ => [⟨Outcome.response 200, 1500⟩]) =
      Except.ok (some (finalize ⟨"http://h/p", "GET", 1, 1, [], none⟩
        ⟨[1500], 1, 0, [progressValue 0 1 1500], [Outcome.response 200]⟩ 1500)) ∧
    (finalize ⟨"http://h/p", "GET", 1, 1, [], none⟩
        ⟨[1500], 1, 0, [progressValue 0 1 1500], [Outcome.response 200]⟩ 1500).duration
      = ((1500 : ℕ) : ℚ) / 1000 := by
  have h := c7_rps_measured_duration ⟨"http://h/p", "GET", 1, 1, [], none⟩ 0
    (fun _ => [⟨Outcome.response 200, 1500⟩])
    ⟨[1500], 1, 0, [progressValue 0 1 1500], [Outcome.response 200]⟩ 1500
    (by decide) rfl
  exact ⟨h.1, h.2.1⟩

/-- C9: the measured `actualDuration` of a completed run is never below
the configured `duration`: a worker stops only once the deadline has
passed (or its oracle is exhausted — excluded by the coverage
hypothesis, which says some worker has enough network events to reach
the deadline), and in-flight requests drain before resolution. -/
theorem c9_actual_ge_configured (options : BenchmarkOptions) (startTime : ℕ)
    (oracle : ℕ → List Event) (s : RunState) (tf : ℕ)
    (hcov : ∃ evs ∈ (List.range options.connections).map oracle,
        options.duration * 1000 ≤ (evs.map Event.dur).sum)
    (hrun : runWorkers startTime options.duration initialState
        ((List.range options.connections).map oracle) = (s, some tf)) :
    (options.duration : ℚ) ≤ (finalize options s (tf - startTime)).duration := by
  obtain ⟨evs, hmem, hsum⟩ := hcov
  have htf : startTime + options.duration * 1000 ≤ tf :=
    runWorkers_stopTime_ge startTime options.duration
      ((List.range options.connections).map oracle) initialState tf evs hmem
      (by omega) (by rw [hrun])
  have h1 : options.duration * 1000 ≤ tf - startTime := by omega
  have h2 : ((options.duration * 1000 : ℕ) : ℚ) ≤ ((tf - startTime : ℕ) : ℚ) :=
    Nat.cast_le.mpr h1
  show (options.duration : ℚ) ≤ ((tf - startTime : ℕ) : ℚ) / 1000
  calc (options.duration : ℚ) = ((options.duration * 1000 : ℕ) : ℚ) / 1000 := by
        push_cast
        ring
    _ ≤ ((tf - startTime : ℕ) : ℚ) / 1000 := by gcongr

/-- Witness for C9: a 1 s run whose single worker gets one 1200 ms
response; the worker covers the deadline and the measured duration,
1.2 s, is at least the configured 1 s. -/
theorem c9_actual_ge_configured_witness :
    (1 : ℚ) ≤ (finalize ⟨"http://h/p", "GET", 1, 1, [], none⟩
      ⟨[1200], 1, 0, [progressValue 0 1 1200], [Outcome.response 200]⟩ (1200 - 0)).duration := by
  have h := c9_actual_ge_configured ⟨"http://h/p", "GET", 1, 1, [], none⟩ 0
    (fun _ => [⟨Outcome.response 200, 1200⟩])
    ⟨[1200], 1, 0, [progressValue 0 1 1200], [Outcome.response 200]⟩ 1200
    ⟨[⟨Outcome.response 200, 1200⟩], by simp, by decide⟩ rfl
  exact_mod_cast h

theorem finalize_avg (options : BenchmarkOptions) (s : RunState) (elapsedMs : ℕ) :
    (finalize options s elapsedMs).avgLatency =
      if 0 < s.latencies.length then
        ((s.latencies.sum : ℕ) : ℚ) / (s.latencies.length : ℚ)
      else 0 := by
  have hperm := List.perm_insertionSort (· ≤ ·) s.latencies
  have hlen := hperm.length_eq
  have hsum := hperm.sum_eq
  show (if 0 < (s.latencies.insertionSort (· ≤ ·)).length then
      (((s.latencies.insertionSort (· ≤ ·)).sum : ℕ) : ℚ) /
        ((s.latencies.insertionSort (· ≤ ·)).length : ℚ)
    else 0) = _
  rw [hlen, hsum]

theorem finalize_min (options : BenchmarkOptions) (s : RunState) (elapsedMs : ℕ) :
    (finalize options s elapsedMs).minLatency =
      if 0 < s.latencies.length then
        (s.latencies.insertionSort (· ≤ ·)).headD 0
      else 0 := by
  have hlen := (List.perm_insertionSort (· ≤ ·) s.latencies).length_eq
  show (if 0 < (s.latencies.insertionSort (· ≤ ·)).length then
      (s.latencies.insertionSort (· ≤ ·)).headD 0 else 0) = _
  rw [hlen]

theorem finalize_max (options : BenchmarkOptions) (s : RunState) (elapsedMs : ℕ) :
    (finalize options s elapsedMs).maxLatency =
      if 0 < s.latencies.length then
        (s.latencies.insertionSort (· ≤ ·)).getLastD 0
      else 0 := by
  have hlen := (List.perm_insertionSort (· ≤ ·) s.latencies).length_eq
  show (if 0 < (s.latencies.insertionSort (· ≤ ·)).length then
      (s.latencies.insertionSort (· ≤ ·)).getLastD 0 else 0) = _
  rw [hlen]

/-- C8: `avgLatency`, `minLatency` and `maxLatency` are computed over the
timed samples only — avg is the sum of timed latencies divided by their
count, min/max are the first/last element of the sorted latency array,
all three are 0 when there are no timed samples — and for timed samples
1..10 ms they evaluate to avg = 5.5, min = 1, max = 10. -/
theorem c8_stats_over_timed (options : BenchmarkOptions) (s : RunState) (elapsedMs : ℕ) :
    ((finalize options s elapsedMs).avgLatency =
      if 0 < s.latencies.length then
        ((s.latencies.sum : ℕ) : ℚ) / (s.latencies.length : ℚ)
      else 0) ∧
    ((finalize options s elapsedMs).minLatency =
      if 0 < s.latencies.length then
        (s.latencies.insertionSort (· ≤ ·)).headD 0
      else 0) ∧
    ((finalize options s elapsedMs).maxLatency =
      if 0 < s.latencies.length then
        (s.latencies.insertionSort (· ≤ ·)).getLastD 0
      else 0) ∧
    (finalize options ⟨[1, 2, 3, 4, 5, 6, 7, 8, 9, 10], 10, 0, [],
        List.replicate 10 (Outcome.response 200)⟩ 2000).avgLatency = 5.5 ∧
    (finalize options ⟨[1, 2, 3, 4, 5, 6, 7, 8, 9, 10], 10, 0, [],
        List.replicate 10 (Outcome.response 200)⟩ 2000).minLatency = 1 ∧
    (finalize options ⟨[1, 2, 3, 4, 5, 6, 7, 8, 9, 10], 10, 0, [],
        List.replicate 10 (Outcome.response 200)⟩ 2000).maxLatency = 10 := by
  have hs : List.insertionSort (· ≤ ·) [1, 2, 3, 4, 5, 6, 7, 8, 9, 10]
      = [1, 2, 3, 4, 5, 6, 7, 8, 9, 10] := by decide
  refine ⟨finalize_avg options s elapsedMs, finalize_min options s elapsedMs,
    finalize_max options s elapsedMs, ?_, ?_, ?_⟩
  · rw [finalize_avg]
    norm_num
  · rw [finalize_min]
    norm_num [hs]
  · rw [finalize_max]
    norm_num [hs]

/-- Witness for C8: the average-latency rule evaluated at a singleton
timed sample of 7 ms. -/
theorem c8_stats_over_timed_witness :
    (finalize ⟨"http://h/p", "GET", 1, 1, [], none⟩
        ⟨[7], 1, 0, [], [Outcome.response 200]⟩ 500).avgLatency =
      if 0 < ([7] : List ℕ).length then
        ((([7] : List ℕ).sum : ℕ) : ℚ) / (([7] : List ℕ).length : ℚ)
      else 0 :=
  (c8_stats_over_timed ⟨"http://h/p", "GET", 1, 1, [], none⟩
    ⟨[7], 1, 0, [], [Outcome.response 200]⟩ 500).1

theorem sorted_getD_le_getD (l : List ℕ) (hl : l.Sorted (· ≤ ·)) (i j : ℕ)
    (hij : i ≤ j) (hj : j < l.length) : l.getD i 0 ≤ l.getD j 0 := by
  have hi : i < l.length := lt_of_le_of_lt hij hj
  rw [List.getD_eq_getElem?_getD, List.getD_eq_getElem?_getD,
    List.getElem?_eq_getElem hi, List.getElem?_eq_getElem hj]
  simp only [Option.getD_some]
  rcases eq_or_lt_of_le hij with heq | hlt
  · subst heq
    exact le_refl _
  · have := hl.rel_get_of_lt (a := ⟨i, hi⟩) (b := ⟨j, hj⟩) (Fin.mk_lt_mk.mpr hlt)
    simpa using this

theorem percentileIndex_mono (count : ℕ) (p₁ p₂ : ℚ) (h : p₁ ≤ p₂) :
    percentileIndex count p₁ ≤ percentileIndex count p₂ := by
  have hmul : (count : ℚ) * p₁ ≤ (count : ℚ) * p₂ :=
    mul_le_mul_of_nonneg_left h (by positivity)
  exact sub_le_sub_right (Int.ceil_mono hmul) 1

theorem percentileIndex_lt (count : ℕ) (p : ℚ) (hp : p ≤ 1) (hc : 0 < count) :
    Int.toNat (max 0 (percentileIndex count p)) < count := by
  have hceil : ⌈(count : ℚ) * p⌉ ≤ (count : ℤ) := by
    apply Int.ceil_le.mpr
    push_cast
    calc (count : ℚ) * p ≤ (count : ℚ) * 1 :=
          mul_le_mul_of_nonneg_left hp (by positivity)
      _ = (count : ℚ) := mul_one _
  simp only [percentileIndex] at *
  omega

theorem percentile_mono_of_sorted (l : List ℕ) (hl : l.Sorted (· ≤ ·))
    (p₁ p₂ : ℚ) (h12 : p₁ ≤ p₂) (hp2 : p₂ ≤ 1) :
    percentile l p₁ ≤ percentile l p₂ := by
  by_cases hlen : l.length = 0
  · simp [percentile, hlen]
  · simp only [percentile, if_neg hlen]
    apply sorted_getD_le_getD l hl _ _ ?_
      (percentileIndex_lt l.length p₂ hp2 (Nat.pos_of_ne_zero hlen))
    have := percentileIndex_mono l.length p₁ p₂ h12
    omega

theorem getD_zero_le_percentile (l : List ℕ) (hl : l.Sorted (· ≤ ·))
    (hlen : ¬ l.length = 0) (p : ℚ) (hp : p ≤ 1) :
    l.getD 0 0 ≤ percentile l p := by
  simp only [percentile, if_neg hlen]
  exact sorted_getD_le_getD l hl 0 _ (Nat.zero_le _)
    (percentileIndex_lt l.length p hp (Nat.pos_of_ne_zero hlen))

theorem percentile_le_getD_last (l : List ℕ) (hl : l.Sorted (· ≤ ·))
    (hlen : ¬ l.length = 0) (p : ℚ) (hp : p ≤ 1) :
    percentile l p ≤ l.getD (l.length - 1) 0 := by
  simp only [percentile, if_neg hlen]
  have h1 := percentileIndex_lt l.length p hp (Nat.pos_of_ne_zero hlen)
  exact sorted_getD_le_getD l hl _ _ (by omega) (by omega)

theorem headD_eq_getD_zero (l : List ℕ) : l.headD 0 = l.getD 0 0 := by
  rw [List.headD_eq_head?_getD, List.head?_eq_getElem?, List.getD_eq_getElem?_getD]

theorem getLastD_eq_getD_last (l : List ℕ) :
    l.getLastD 0 = l.getD (l.length - 1) 0 := by
  rw [List.getLastD_eq_getLast?, List.getLast?_eq_getElem?, List.getD_eq_getElem?_getD]

/-- C10: the percentile function is monotone in `p` on the sorted latency
array, and consequently every result with at least one timed sample
satisfies `minLatency ≤ p50 ≤ p95 ≤ p99 ≤ maxLatency`. -/
theorem c10_percentile_monotone :
    (∀ (l : List ℕ) (p₁ p₂ : ℚ), l.Sorted (· ≤ ·) → 0 < p₁ → p₁ ≤ p₂ → p₂ ≤ 1 →
      percentile l p₁ ≤ percentile l p₂) ∧
    (∀ (options : BenchmarkOptions) (s : RunState) (elapsedMs : ℕ),
      s.latencies ≠ [] →
      (finalize options s elapsedMs).minLatency ≤ (finalize options s elapsedMs).p50 ∧
      (finalize options s elapsedMs).p50 ≤ (finalize options s elapsedMs).p95 ∧
      (finalize options s elapsedMs).p95 ≤ (finalize options s elapsedMs).p99 ∧
      (finalize options s elapsedMs).p99 ≤ (finalize options s elapsedMs).maxLatency) := by
  constructor
  · intro l p₁ p₂ hsort _ h12 hp2
    exact percentile_mono_of_sorted l hsort p₁ p₂ h12 hp2
  · intro options s elapsedMs hne
    have hsort : (s.latencies.insertionSort (· ≤ ·)).Sorted (· ≤ ·) :=
      List.sorted_insertionSort (· ≤ ·) s.latencies
    have hlen0 : ¬ (s.latencies.insertionSort (· ≤ ·)).length = 0 := by
      rw [(List.perm_insertionSort (· ≤ ·) s.latencies).length_eq]
      simpa [List.length_eq_zero] using hne
    have hpos : 0 < s.latencies.length := by
      rcases Nat.eq_zero_or_pos s.latencies.length with h | h
      · exact absurd (List.length_eq_zero.mp h) hne
      · exact h
    refine ⟨?_, ?_, ?_, ?_⟩
    · rw [finalize_min, if_pos hpos, headD_eq_getD_zero]
      exact getD_zero_le_percentile _ hsort hlen0 0.5 (by norm_num)
    · exact percentile_mono_of_sorted _ hsort 0.5 0.95 (by norm_num) (by norm_num)
    · exact percentile_mono_of_sorted _ hsort 0.95 0.99 (by norm_num) (by norm_num)
    · rw [finalize_max, if_pos hpos, getLastD_eq_getD_last]
      exact percentile_le_getD_last _ hsort hlen0 0.99 (by norm_num)

/-- Witness for C10: monotonicity evaluated on the sorted samples
`[1, 2, 3]` at p = 0.5 and p = 0.95, and the ordering chain on a
finalized two-sample result. -/
theorem c10_percentile_monotone_witness :
    percentile [1, 2, 3] 0.5 ≤ percentile [1, 2, 3] 0.95 ∧
    (finalize ⟨"http://h/p", "GET", 1, 1, [], none⟩
        ⟨[6, 5], 2, 0, [], [Outcome.response 200, Outcome.response 200]⟩ 900).minLatency ≤
      (finalize ⟨"http://h/p", "GET", 1, 1, [], none⟩
        ⟨[6, 5], 2, 0, [], [Outcome.response 200, Outcome.response 200]⟩ 900).p50 :=
  ⟨c10_percentile_monotone.1 [1, 2, 3] 0.5 0.95 (by decide) (by norm_num)
      (by norm_num) (by norm_num),
   (c10_percentile_monotone.2 ⟨"http://h/p", "GET", 1, 1, [], none⟩
      ⟨[6, 5], 2, 0, [], [Outcome.response 200, Outcome.response 200]⟩ 900
      (by decide)).1⟩
